import Mathlib

set_option maxRecDepth 8000

/-!
Shallow embedding of the requirement-extraction engine of the
FCH-Jira-Automation-Workflow repository (src/scripts/process_transcript.py and
the summary templating of src/utils/ticket_generator.py).

Transcript text is modelled as `List Char` (Python `str`), and the regular
expressions of the extraction pattern table are modelled by an explicit
backtracking matcher (`mmatch`) whose alternation, greedy/lazy repetition and
non-overlapping `finditer` scanning mirror the Python `re` dialect used by the
source (all extractor searches use `re.IGNORECASE`; the `re.split` calls do
not).
-/

namespace FCH

/-- Characters treated as whitespace (Python `\s` on the ASCII texts handled
here, and the characters removed by `str.strip()`). -/
def isPySpace (c : Char) : Bool :=
  c == ' ' || c == '\t' || c == '\n' || c == '\r' || c == '\x0b' || c == '\x0c'

/-- Model of Python `str.strip()`: remove leading and trailing whitespace. -/
def pyStrip (l : List Char) : List Char :=
  ((l.dropWhile isPySpace).reverse.dropWhile isPySpace).reverse

/-- Model of Python `str.lower()` for ASCII text. -/
def pyLower (l : List Char) : List Char := l.map Char.toLower

/-- Model of Python `str.upper()` for ASCII text. -/
def pyUpper (l : List Char) : List Char := l.map Char.toUpper

/-- Model of Python `str.capitalize()`: first character upper-cased, the rest
lower-cased. -/
def pyCapitalize (l : List Char) : List Char :=
  match l with
  | [] => []
  | c :: rest => c.toUpper :: rest.map Char.toLower

/-- needle is a prefix of hay (character-exact). -/
def startsWithChars : List Char → List Char → Bool
  | [], _ => true
  | _ :: _, [] => false
  | a :: as, b :: bs => a == b && startsWithChars as bs

/-- Model of the Python substring test `needle in hay`. -/
def containsSub (needle : List Char) : List Char → Bool
  | [] => startsWithChars needle []
  | c :: rest => startsWithChars needle (c :: rest) || containsSub needle rest

/-- Model of `any(word in text for word in kws)`. -/
def anyKeyword (kws : List String) (l : List Char) : Bool :=
  kws.any (fun w => containsSub w.data l)

/-! ## Regular-expression engine -/

/-- Character classes appearing in the source's extraction patterns.  Under
`re.IGNORECASE` the class `[A-Z]` matches every ASCII letter, which is what
`alpha` tests. -/
inductive CharClass where
  | ws
  | alpha
  | alphaWs
  | nonDot
  | nonNl
  | digit
  | word
  | commaSemi
  | dash
  | sentenceEnd
deriving DecidableEq

def CharClass.test : CharClass → Char → Bool
  | .ws, c => isPySpace c
  | .alpha, c => c.isAlpha
  | .alphaWs, c => c.isAlpha || isPySpace c
  | .nonDot, c => c != '.'
  | .nonNl, c => c != '\n'
  | .digit, c => c.isDigit
  | .word, c => c.isAlphanum || c == '_'
  | .commaSemi, c => c == ',' || c == ';'
  | .dash, c => c == '-' || c == '–' || c == '—'
  | .sentenceEnd, c => c == '.' || c == '!' || c == '?'

/-- Abstract syntax of the regular expressions used by the extractor.
Alternation tries the left branch first, `star` is greedy, `starL` is lazy,
exactly as in the Python backtracking dialect. -/
inductive RE where
  | eps
  | lit (s : List Char)
  | cls (c : CharClass)
  | seq (r1 r2 : RE)
  | alt (r1 r2 : RE)
  | opt (r : RE)
  | star (r : RE)
  | starL (r : RE)
  | group (i : Nat) (r : RE)

/-- Greedy `+` as one copy followed by a greedy `*`. -/
def RE.plus (r : RE) : RE := .seq r (.star r)

/-- Lazy `+?` as one copy followed by a lazy `*?`. -/
def RE.plusL (r : RE) : RE := .seq r (.starL r)

/-- Captured groups of a match: group index paired with the captured span.
The head entry for an index is its most recent capture. -/
abbrev Caps := List (Nat × List Char)

/-- Captured text of a group (Python `match.group(i)` for the patterns here,
where every group participates in every match). -/
def capGet (i : Nat) (caps : Caps) : List Char :=
  match caps.lookup i with
  | some v => v
  | none => []

/-- Strip a literal from the front of the input, case-insensitively when
`ic` is set. -/
def stripLitIC (ic : Bool) : List Char → List Char → Option (List Char)
  | [], s => some s
  | _ :: _, [] => none
  | a :: as, b :: bs =>
      if (if ic then a.toLower == b.toLower else a == b) then stripLitIC ic as bs
      else none

/-- Backtracking matcher in continuation-passing style.  The continuation
receives the remaining input and the captures collected so far; `none` makes
the matcher backtrack into the next alternative.  `fuel` bounds recursion
depth and is chosen generously in `reMatchAt`. -/
def mmatch : Nat → Bool → RE → List Char → Caps →
    (List Char → Caps → Option (List Char × Caps)) → Option (List Char × Caps)
  | 0, _, _, _, _, _ => none
  | _ + 1, _, .eps, s, caps, k => k s caps
  | _ + 1, ic, .lit l, s, caps, k =>
      match stripLitIC ic l s with
      | some rest => k rest caps
      | none => none
  | _ + 1, _, .cls c, s, caps, k =>
      match s with
      | [] => none
      | x :: rest => if c.test x then k rest caps else none
  | fuel + 1, ic, .seq r1 r2, s, caps, k =>
      mmatch fuel ic r1 s caps (fun s' caps' => mmatch fuel ic r2 s' caps' k)
  | fuel + 1, ic, .alt r1 r2, s, caps, k =>
      (mmatch fuel ic r1 s caps k).orElse (fun _ => mmatch fuel ic r2 s caps k)
  | fuel + 1, ic, .opt r, s, caps, k =>
      (mmatch fuel ic r s caps k).orElse (fun _ => k s caps)
  | fuel + 1, ic, .star r, s, caps, k =>
      (mmatch fuel ic r s caps (fun s' caps' =>
        if s'.length < s.length then mmatch fuel ic (.star r) s' caps' k
        else none)).orElse (fun _ => k s caps)
  | fuel + 1, ic, .starL r, s, caps, k =>
      (k s caps).orElse (fun _ =>
        mmatch fuel ic r s caps (fun s' caps' =>
          if s'.length < s.length then mmatch fuel ic (.starL r) s' caps' k
          else none))
  | fuel + 1, ic, .group i r, s, caps, k =>
      mmatch fuel ic r s caps (fun s' caps' =>
        k s' ((i, s.take (s.length - s'.length)) :: caps'))

/-- Recursion-depth budget: ample for the fixed pattern table on any input. -/
def reFuel (s : List Char) : Nat := (s.length + 2) * 64 + 512

/-- Match `re` at the start of `s`; on success, the consumed length and the
captures. -/
def reMatchAt (ic : Bool) (re : RE) (s : List Char) : Option (Nat × Caps) :=
  match mmatch (reFuel s) ic re s [] (fun s' caps => some (s', caps)) with
  | some (s', caps) => some (s.length - s'.length, caps)
  | none => none

/-- One match found while scanning: start offset, end offset, captures. -/
structure MatchSpan where
  start : Nat
  stop : Nat
  caps : Caps

def finditerAux : Nat → Bool → RE → List Char → Nat → List MatchSpan
  | 0, _, _, _, _ => []
  | fuel + 1, ic, re, s, pos =>
      match reMatchAt ic re s with
      | some (n, caps) =>
          if n == 0 then
            { start := pos, stop := pos, caps := caps } ::
              (match s with
               | [] => []
               | _ :: rest => finditerAux fuel ic re rest (pos + 1))
          else
            { start := pos, stop := pos + n, caps := caps } ::
              finditerAux fuel ic re (s.drop n) (pos + n)
      | none =>
          match s with
          | [] => []
          | _ :: rest => finditerAux fuel ic re rest (pos + 1)

/-- Model of `re.finditer`: non-overlapping matches, scanning left to right. -/
def reFindIter (ic : Bool) (re : RE) (s : List Char) : List MatchSpan :=
  finditerAux (s.length + 1) ic re s 0

def reSearchAux : Nat → Bool → RE → List Char → Nat → Option MatchSpan
  | 0, _, _, _, _ => none
  | fuel + 1, ic, re, s, pos =>
      match reMatchAt ic re s with
      | some (n, caps) => some { start := pos, stop := pos + n, caps := caps }
      | none =>
          match s with
          | [] => none
          | _ :: rest => reSearchAux fuel ic re rest (pos + 1)

/-- Model of `re.search`: the leftmost match, if any. -/
def reSearch (ic : Bool) (re : RE) (s : List Char) : Option MatchSpan :=
  reSearchAux (s.length + 1) ic re s 0

def splitAtSpans (s : List Char) : Nat → List MatchSpan → List (List Char)
  | pos, [] => s.drop pos
      |> (fun rest => [rest])
  | pos, m :: rest => ((s.drop pos).take (m.start - pos)) :: splitAtSpans s m.stop rest

/-- Model of `re.split`: cut the input at every non-overlapping match of the
delimiter pattern (the source's split patterns contain no capture groups). -/
def reSplit (ic : Bool) (re : RE) (s : List Char) : List (List Char) :=
  splitAtSpans s 0 (reFindIter ic re s)

/-! ## The pattern table of `_load_extraction_patterns` -/

/-- Literal pattern text. -/
def L (s : String) : RE := .lit s.data

/-- Literal with an optional trailing `s`, i.e. the pattern `words?`. -/
def litS (s : String) : RE := .seq (L s) (.opt (L "s"))

/-- The pattern `\s+`. -/
def pws : RE := RE.plus (.cls .ws)

/-- The pattern `\s*`. -/
def sws : RE := .star (.cls .ws)

/-- The pattern `\d`. -/
def dig : RE := .cls .digit

/-- Right-nested concatenation. -/
def cat : List RE → RE
  | [] => .eps
  | [r] => r
  | r :: rest => .seq r (cat rest)

/-- Right-nested alternation, tried in the given order. -/
def alts : List RE → RE
  | [] => .eps
  | [r] => r
  | r :: rest => .alt r (alts rest)

/-- Pattern `(?:build|create|implement|develop)\s+(?:a\s+|an\s+|the\s+)?([A-Z][A-Za-z\s]+?)(?:\s+feature|\s+module|\s+system)`. -/
def epicRE1 : RE := cat [
  alts [L "build", L "create", L "implement", L "develop"], pws,
  .opt (alts [.seq (L "a") pws, .seq (L "an") pws, .seq (L "the") pws]),
  .group 1 (.seq (.cls .alpha) (RE.plusL (.cls .alphaWs))),
  alts [.seq pws (L "feature"), .seq pws (L "module"), .seq pws (L "system")]]

/-- Pattern `(?:for\s+the\s+)([A-Z][A-Za-z\s]+?)(?:\s+feature|\s+module)`. -/
def epicRE2 : RE := cat [
  L "for", pws, L "the", pws,
  .group 1 (.seq (.cls .alpha) (RE.plusL (.cls .alphaWs))),
  alts [.seq pws (L "feature"), .seq pws (L "module")]]

/-- Pattern `(users?|nurses?|doctors?|admins?|staff)\s+(?:should\s+be\s+able\s+to|need\s+to|must|can)\s+([^.]+)`. -/
def userStoryRE1 : RE := cat [
  .group 1 (alts [litS "user", litS "nurse", litS "doctor", litS "admin", L "staff"]), pws,
  alts [cat [L "should", pws, L "be", pws, L "able", pws, L "to"],
        cat [L "need", pws, L "to"], L "must", L "can"], pws,
  .group 2 (RE.plus (.cls .nonDot))]

/-- Pattern `(?:the\s+system|it)\s+(?:should|must|needs?\s+to)\s+(?:allow|enable|let)\s+(?:users?|nurses?|doctors?)\s+to\s+([^.]+)`. -/
def userStoryRE2 : RE := cat [
  alts [cat [L "the", pws, L "system"], L "it"], pws,
  alts [L "should", L "must", cat [litS "need", pws, L "to"]], pws,
  alts [L "allow", L "enable", L "let"], pws,
  alts [litS "user", litS "nurse", litS "doctor"], pws, L "to", pws,
  .group 1 (RE.plus (.cls .nonDot))]

/-- Pattern `(?:fields?\s+(?:for|include)|need|require|capture)\s+([^.]+?)\s*[-–—]\s*(all\s+)?(?:required|mandatory|optional)`. -/
def fieldSpecRE1 : RE := cat [
  alts [cat [litS "field", pws, alts [L "for", L "include"]], L "need", L "require", L "capture"],
  pws, .group 1 (RE.plusL (.cls .nonDot)), sws, .cls .dash, sws,
  .opt (.group 2 (.seq (L "all") pws)),
  alts [L "required", L "mandatory", L "optional"]]

/-- Pattern `with\s+fields?\s+(?:for\s+)?([^.]+)`. -/
def fieldSpecRE2 : RE := cat [
  L "with", pws, litS "field", pws, .opt (.seq (L "for") pws),
  .group 1 (RE.plus (.cls .nonDot))]

/-- Pattern `(?:table|columns?)\s+(?:showing|with|for|displaying)\s+([^.]+)`. -/
def tableColsRE1 : RE := cat [
  alts [L "table", litS "column"], pws,
  alts [L "showing", L "with", L "for", L "displaying"], pws,
  .group 1 (RE.plus (.cls .nonDot))]

/-- Pattern `(?:show|display)\s+(?:columns?\s+for\s+)?([^.]+)\s+in\s+(?:the\s+)?table`. -/
def tableColsRE2 : RE := cat [
  alts [L "show", L "display"], pws,
  .opt (cat [litS "column", pws, L "for", pws]),
  .group 1 (RE.plus (.cls .nonDot)), pws, L "in", pws,
  .opt (.seq (L "the") pws), L "table"]

/-- Pattern `(?:tabs?|sections?)\s*:\s*([^.]+)`. -/
def tabsRE1 : RE := cat [
  alts [litS "tab", litS "section"], sws, L ":", sws,
  .group 1 (RE.plus (.cls .nonDot))]

/-- Pattern `(?:split|divided)\s+into\s+(?:\d+\s+)?tabs?\s*:\s*([^.]+)`. -/
def tabsRE2 : RE := cat [
  alts [L "split", L "divided"], pws, L "into", pws,
  .opt (.seq (RE.plus dig) pws), litS "tab", sws, L ":", sws,
  .group 1 (RE.plus (.cls .nonDot))]

/-- Pattern `(?:priority\s+is\s+|)(?:highest|high|medium|low|critical)`. -/
def priorityRE1 : RE := cat [
  alts [cat [L "priority", pws, L "is", pws], .eps],
  alts [L "highest", L "high", L "medium", L "low", L "critical"]]

/-- Pattern `(?:critical|urgent|important)\s+for`. -/
def priorityRE2 : RE := cat [
  alts [L "critical", L "urgent", L "important"], pws, L "for"]

/-- Pattern `(nurses?|doctors?|admins?|staff|users?)\s+can\s+([^.]+)`. -/
def rbacRE1 : RE := cat [
  .group 1 (alts [litS "nurse", litS "doctor", litS "admin", L "staff", litS "user"]),
  pws, L "can", pws, .group 2 (RE.plus (.cls .nonDot))]

/-- Pattern `only\s+(nurses?|doctors?|admins?)\s+(?:can|should|may)\s+([^.]+)`. -/
def rbacRE2 : RE := cat [
  L "only", pws, .group 1 (alts [litS "nurse", litS "doctor", litS "admin"]), pws,
  alts [L "can", L "should", L "may"], pws, .group 2 (RE.plus (.cls .nonDot))]

/-- Pattern `(?:should\s+not\s+allow|don't\s+allow|prevent|block)\s+([^.]+)`. -/
def validationRE1 : RE := cat [
  alts [cat [L "should", pws, L "not", pws, L "allow"],
        cat [L "don\x27t", pws, L "allow"], L "prevent", L "block"], pws,
  .group 1 (RE.plus (.cls .nonDot))]

/-- Pattern `(?:required\s+when|only\s+if|mandatory\s+when)\s+([^.]+)`. -/
def validationRE2 : RE := cat [
  alts [cat [L "required", pws, L "when"], cat [L "only", pws, L "if"],
        cat [L "mandatory", pws, L "when"]], pws,
  .group 1 (RE.plus (.cls .nonDot))]

/-- The fixed pattern table loaded by `_load_extraction_patterns`. -/
structure Patterns where
  epic_name : List RE
  user_story : List RE
  field_spec : List RE
  table_columns : List RE
  tabs : List RE
  priority : List RE
  rbac : List RE
  validation : List RE

def load_extraction_patterns : Patterns :=
  { epic_name := [epicRE1, epicRE2],
    user_story := [userStoryRE1, userStoryRE2],
    field_spec := [fieldSpecRE1, fieldSpecRE2],
    table_columns := [tableColsRE1, tableColsRE2],
    tabs := [tabsRE1, tabsRE2],
    priority := [priorityRE1, priorityRE2],
    rbac := [rbacRE1, rbacRE2],
    validation := [validationRE1, validationRE2] }

/-- The processor object: it holds the pattern table loaded once at
construction and never mutated afterwards. -/
structure TranscriptProcessor where
  extraction_patterns : Patterns

/-- Model of `TranscriptProcessor.__init__`. -/
def TranscriptProcessor.new : TranscriptProcessor :=
  { extraction_patterns := load_extraction_patterns }

/-! ## Inline patterns used outside the table -/

/-- Inline pattern `fields?\s+(?:for|include)\s+([^.]+)` of `_extract_fields`. -/
def fieldLocalRE1 : RE := cat [
  litS "field", pws, alts [L "for", L "include"], pws,
  .group 1 (RE.plus (.cls .nonDot))]

/-- Inline pattern `(?:need|require|capture)\s+([^.]+?)\s*[-–—]\s*(?:all\s+)?(?:required|mandatory|optional)` of `_extract_fields`. -/
def fieldLocalRE2 : RE := cat [
  alts [L "need", L "require", L "capture"], pws,
  .group 1 (RE.plusL (.cls .nonDot)), sws, .cls .dash, sws,
  .opt (.seq (L "all") pws),
  alts [L "required", L "mandatory", L "optional"]]

/-- Pattern `add\s+(?:a\s+|an\s+)?(\w+)` of `_extract_entity_name`. -/
def entityRE : RE := cat [
  L "add", pws, .opt (alts [.seq (L "a") pws, .seq (L "an") pws]),
  .group 1 (RE.plus (.cls .word))]

/-- Pattern `(?:date|meeting)\s*:\s*(\d{4}-\d{2}-\d{2}|\d{1,2}/\d{1,2}/\d{4})` of `_extract_metadata`. -/
def dateRE : RE := cat [
  alts [L "date", L "meeting"], sws, L ":", sws,
  .group 1 (alts [
    cat [dig, dig, dig, dig, L "-", dig, dig, L "-", dig, dig],
    cat [dig, .opt dig, L "/", dig, .opt dig, L "/", dig, dig, dig, dig]])]

/-- Pattern `(?:attendees|participants)\s*:\s*([^\n]+)` of `_extract_metadata`. -/
def attendeesRE : RE := cat [
  alts [L "attendees", L "participants"], sws, L ":", sws,
  .group 1 (RE.plus (.cls .nonNl))]

/-- Pattern `(?:action item|todo|task)\s*:\s*([^.]+)` of `_extract_action_items`. -/
def actionRE1 : RE := cat [
  alts [L "action item", L "todo", L "task"], sws, L ":", sws,
  .group 1 (RE.plus (.cls .nonDot))]

/-- Pattern `([A-Z][^.]+?)\s+(?:will|should|needs? to)\s+([^.]+)\s+by\s+(\d{1,2}/\d{1,2}|\w+ \d{1,2})` of `_extract_action_items`. -/
def actionRE2 : RE := cat [
  .group 1 (.seq (.cls .alpha) (RE.plusL (.cls .nonDot))), pws,
  alts [L "will", L "should", cat [L "need", .opt (L "s"), L " to"]], pws,
  .group 2 (RE.plus (.cls .nonDot)), pws, L "by", pws,
  .group 3 (alts [
    cat [dig, .opt dig, L "/", dig, .opt dig],
    cat [RE.plus (.cls .word), L " ", dig, .opt dig]])]

/-- Pattern `{field_name}[^.]*?(required|mandatory|optional)` built by
`_is_mandatory` from the field name. -/
def mandatoryRE (field_name : List Char) : RE := cat [
  .lit field_name, RE.starL (.cls .nonDot),
  .group 1 (alts [L "required", L "mandatory", L "optional"])]

/-- Delimiter `[,;]|\s+and\s+` used by the split in `_extract_tabs`,
`_extract_columns` and `_extract_fields` (no IGNORECASE flag). -/
def splitDelimRE : RE :=
  .alt (.cls .commaSemi) (cat [RE.plus (.cls .ws), L "and", RE.plus (.cls .ws)])

/-! ## Data model (the dictionaries produced by the extractor) -/

structure Field where
  name : String
  type : String
  mandatory : Bool
deriving DecidableEq

structure RbacEntry where
  permissions : List String
  actions : List String
deriving DecidableEq

/-- The open `details` mapping of a ticket: each key is present only for the
ticket kinds that set it. -/
structure TicketDetails where
  tab_name : Option String
  columns : Option (List String)
  entity_name : Option String
  fields : Option (List Field)
  rbac : Option (List (String × RbacEntry))
deriving DecidableEq

structure Ticket where
  ticket_type : String
  summary : String
  priority : String
  details : Option TicketDetails
deriving DecidableEq

structure Epic where
  epic_name : String
  epic_description : String
  priority : String
  scope : String
  tabs : List String
  tickets : List Ticket
deriving DecidableEq

structure MeetingMetadata where
  date : String
  attendees : List String
  duration : String
  topics : List String
deriving DecidableEq

structure ActionItem where
  item : String
  owner : String
  due_date : String
deriving DecidableEq

structure ClarificationItem where
  question : String
  context : String
deriving DecidableEq

structure RequirementDocument where
  meeting_metadata : MeetingMetadata
  epics : List Epic
  action_items : List ActionItem
  clarifications_needed : List ClarificationItem
deriving DecidableEq

/-! ## Extractors -/

/-- Captures of every match of every rule of a category, rules in table
order, matches in scan order (the `for pattern: for match:` loops). -/
def ruleCaptures (pats : List RE) (text : List Char) : List Caps :=
  pats.flatMap (fun p => (reFindIter true p text).map (·.caps))

/-- Model of `TranscriptProcessor._extract_metadata`; `now` is the current
date string that `datetime.now().strftime` would produce. -/
def extract_metadata (now : String) (text : List Char) : MeetingMetadata :=
  let date := match reSearch true dateRE text with
    | some m => String.mk (capGet 1 m.caps)
    | none => now
  let attendees := match reSearch true attendeesRE text with
    | some m =>
        (reSplit false (.cls .commaSemi) (capGet 1 m.caps)).filterMap
          (fun a => let a' := pyStrip a
                    if a'.isEmpty then none else some (String.mk a'))
    | none => []
  { date := date, attendees := attendees, duration := "Unknown", topics := [] }

/-- The stripped group-1 spans produced by the `epic_name` rules. -/
def epicCapturedNames (pats : Patterns) (text : List Char) : List String :=
  (ruleCaptures pats.epic_name text).map (fun caps => String.mk (pyStrip (capGet 1 caps)))

/-- The accumulation loop of `_extract_epics`: keep a non-empty name the
first time it is seen (case-sensitive membership test). -/
def epicFold (names : List String) : List String :=
  names.foldl
    (fun epics name =>
      if name ≠ "" ∧ name ∉ epics then epics ++ [name] else epics) []

/-- Model of `TranscriptProcessor._extract_epics`. -/
def extract_epics (pats : Patterns) (text : List Char) : List String :=
  if epicFold (epicCapturedNames pats text) = [] then ["Unnamed Feature"]
  else epicFold (epicCapturedNames pats text)

/-- Model of `TranscriptProcessor._extract_priority`. -/
def extract_priority (text : List Char) : String :=
  let text_lower := pyLower text
  if anyKeyword ["highest", "critical", "urgent"] text_lower then "Highest"
  else if containsSub "high priority".data text_lower ||
          containsSub "important".data text_lower then "High"
  else if containsSub "low priority".data text_lower then "Low"
  else "Medium"

/-- The group-1 spans captured by the `tabs` rules. -/
def tabsCaptures (pats : Patterns) (text : List Char) : List (List Char) :=
  (ruleCaptures pats.tabs text).map (capGet 1)

/-- Split a captured span on `[,;]|\s+and\s+`, strip the pieces, drop the
empty ones. -/
def splitAndTrim (span : List Char) : List String :=
  (reSplit false splitDelimRE span).filterMap
    (fun t => let t' := pyStrip t
              if t'.isEmpty then none else some (String.mk t'))

/-- Model of `TranscriptProcessor._extract_tabs`. -/
def extract_tabs (pats : Patterns) (text : List Char) : List String :=
  (tabsCaptures pats text).flatMap splitAndTrim

/-- Model of `TranscriptProcessor._has_rbac_requirements`. -/
def has_rbac_requirements (text : List Char) : Bool :=
  anyKeyword ["permission", "access", "role", "only", "can view", "can edit", "restricted"]
    (pyLower text)

/-- The action span of an rbac match: group 2 when the pattern declares more
than one group (both rbac rules do), else group 1. -/
def rbacActionOf (caps : Caps) : List Char :=
  match caps.lookup 2 with
  | some a => a
  | none => capGet 1 caps

/-- Append an action to a role's entry, creating the entry on first sight. -/
def rbacAdd (m : List (String × RbacEntry)) (role : String) (action : String) :
    List (String × RbacEntry) :=
  if m.any (fun p => p.1 == role) then
    m.map (fun p =>
      if p.1 == role then (p.1, { p.2 with actions := p.2.actions ++ [action] }) else p)
  else m ++ [(role, { permissions := [], actions := [action] })]

/-- Model of `TranscriptProcessor._extract_rbac`. -/
def extract_rbac (pats : Patterns) (text : List Char) : List (String × RbacEntry) :=
  (ruleCaptures pats.rbac text).foldl
    (fun m caps =>
      rbacAdd m (String.mk (pyCapitalize (capGet 1 caps)))
        (String.mk (pyStrip (rbacActionOf caps)))) []

/-- Model of `TranscriptProcessor._extract_columns`.  The `tab_name`
parameter is accepted and ignored, exactly as in the source. -/
def extract_columns (pats : Patterns) (text : List Char) (_tab_name : Option String) :
    List String :=
  let columns := ((ruleCaptures pats.table_columns text).map (capGet 1)).flatMap splitAndTrim
  if columns.isEmpty then ["<Column 1>", "<Column 2>", "<Column 3>"] else columns

/-- Model of `str.replace(" ", "_")`. -/
def pyReplaceSpace (l : List Char) : List Char :=
  l.map (fun c => if c == ' ' then '_' else c)

/-- Model of `TranscriptProcessor._extract_entity_name`. -/
def extract_entity_name (text : List Char) (epic_name : String) : String :=
  match reSearch true entityRE text with
  | some m => String.mk (pyLower (capGet 1 m.caps))
  | none => String.mk (pyReplaceSpace (pyLower epic_name.data))

/-- Model of `TranscriptProcessor._guess_field_type`. -/
def guess_field_type (field_name : List Char) : String :=
  let fl := pyLower field_name
  if containsSub "date".data fl then "Date picker"
  else if containsSub "name".data fl then "Text field"
  else if containsSub "email".data fl then "Email field"
  else if containsSub "phone".data fl then "Phone field"
  else if containsSub "note".data fl || containsSub "comment".data fl ||
          containsSub "instruction".data fl then "Large text field"
  else if containsSub "status".data fl || containsSub "type".data fl ||
          containsSub "frequency".data fl then "Dropdown"
  else "Text field"

/-- Model of `TranscriptProcessor._is_mandatory`. -/
def is_mandatory (text : List Char) (field_name : List Char) : Bool :=
  match reSearch true (mandatoryRE field_name) text with
  | some m =>
      let g := pyLower (capGet 1 m.caps)
      g == "required".data || g == "mandatory".data
  | none => true

/-- Model of `TranscriptProcessor._extract_fields` (its two inline
patterns, not the table's `field_spec` category). -/
def extract_fields (text : List Char) : List Field :=
  let fields := (ruleCaptures [fieldLocalRE1, fieldLocalRE2] text).flatMap (fun caps =>
    (reSplit false splitDelimRE (capGet 1 caps)).filterMap (fun tok =>
      let fn := pyStrip tok
      if !fn.isEmpty && fn.length > 2 then
        some { name := String.mk (pyCapitalize fn),
               type := guess_field_type fn,
               mandatory := is_mandatory text fn }
      else none))
  if fields.isEmpty then [{ name := "<Field 1>", type := "Text field", mandatory := true }]
  else fields

/-- Model of `TranscriptProcessor._extract_epic_description`: the first
`[.!?]`-sentence that mentions the epic name case-insensitively and is longer
than 20 characters once stripped; otherwise the synthesized fallback. -/
def extract_epic_description (text : List Char) (epic_name : String) : String :=
  let sentences := reSplit false (.cls .sentenceEnd) text
  match sentences.find? (fun s =>
      containsSub (pyLower epic_name.data) (pyLower s) && (pyStrip s).length > 20) with
  | some s => String.mk (pyStrip s)
  | none => "Feature for " ++ epic_name

/-- Model of `TranscriptProcessor._extract_action_items`. -/
def extract_action_items (text : List Char) : List ActionItem :=
  [actionRE1, actionRE2].flatMap (fun p =>
    (reFindIter true p text).map (fun m =>
      { item := String.mk (pyStrip ((text.drop m.start).take (m.stop - m.start))),
        owner := "TBD", due_date := "TBD" }))

/-! ## Ticket synthesizer (`_generate_tickets_from_text`) -/

def backendTicket (epic_name : String) : Ticket :=
  { ticket_type := "backend_architecture",
    summary := "BE: Implement backend architecture of \"" ++ epic_name ++ "\"",
    priority := "High",
    details := none }

def rbacTicket (pats : Patterns) (text : List Char) (epic_name : String) : Ticket :=
  { ticket_type := "rbac_permissions",
    summary := "Adding RBAC permissions related to \"" ++ epic_name ++ "\"",
    priority := "High",
    details := some { tab_name := none, columns := none, entity_name := none,
                      fields := none, rbac := some (extract_rbac pats text) } }

def navTicket (epic_name : String) : Ticket :=
  { ticket_type := "nav_menu",
    summary := "FE: User should be able to view a new menu \"" ++ epic_name ++
      "\" under \"Clinical\" in nav panel",
    priority := "High",
    details := none }

def viewTableTicket (pats : Patterns) (text : List Char) (tab : String) : Ticket :=
  { ticket_type := "view_table_data",
    summary := "User should be able to access and view data in the table of \x27" ++
      tab ++ "\x27 tab",
    priority := "High",
    details := some { tab_name := some tab,
                      columns := some (extract_columns pats text (some tab)),
                      entity_name := none, fields := none, rbac := none } }

def searchFilterTicket (tab : String) : Ticket :=
  { ticket_type := "search_filter",
    summary := "User should be able to search and filter data in \x27" ++ tab ++ "\x27 tab",
    priority := "High",
    details := some { tab_name := some tab, columns := none, entity_name := none,
                      fields := none, rbac := none } }

def addEntityTicket (text : List Char) (epic_name : String) : Ticket :=
  let entity_name := extract_entity_name text epic_name
  { ticket_type := "add_entity",
    summary := "User should be able to add a " ++ entity_name,
    priority := "High",
    details := some { tab_name := none, columns := none,
                      entity_name := some entity_name,
                      fields := some (extract_fields text), rbac := none } }

/-- Model of `TranscriptProcessor._generate_tickets_from_text`: the
unconditional backend ticket first, then each keyword-guarded segment, then
the per-tab view/search tickets, then the add-entity ticket, appended in the
order of the source. -/
def generate_tickets_from_text (pats : Patterns) (text : List Char) (epic_name : String)
    (tabs : List String) : List Ticket :=
  [backendTicket epic_name]
  ++ (if has_rbac_requirements text then [rbacTicket pats text epic_name] else [])
  ++ (if anyKeyword ["menu", "navigation", "nav bar", "sidebar"] (pyLower text) then
        [navTicket epic_name] else [])
  ++ tabs.flatMap (fun tab =>
      [viewTableTicket pats text tab]
      ++ (if anyKeyword ["search", "filter", "find"] (pyLower text) then
            [searchFilterTicket tab] else []))
  ++ (if anyKeyword ["add", "create", "new", "form"] (pyLower text) then
        [addEntityTicket text epic_name] else [])

/-- Model of `TranscriptProcessor._process_epic`. -/
def process_epic (pats : Patterns) (text : List Char) (epic_name : String) : Epic :=
  let tabs := extract_tabs pats text
  { epic_name := epic_name,
    epic_description := extract_epic_description text epic_name,
    priority := extract_priority text,
    scope := "facility-specific",
    tabs := tabs,
    tickets := generate_tickets_from_text pats text epic_name tabs }

/-! ## Clarification auditor (`_identify_clarifications`) -/

/-- `ticket.get("details", {}).get("fields", [])`. -/
def ticketFields (t : Ticket) : List Field :=
  match t.details with
  | some d => d.fields.getD []
  | none => []

/-- `ticket.get("details", {}).get("columns", [])`. -/
def ticketColumns (t : Ticket) : List String :=
  match t.details with
  | some d => d.columns.getD []
  | none => []

/-- The clarification items one ticket contributes: a field flag for an
`add_entity` ticket with a placeholder field name, a column flag for a
`view_table_data` ticket with a placeholder column. -/
def clarificationsOfTicket (t : Ticket) : List ClarificationItem :=
  (if t.ticket_type == "add_entity" &&
      (ticketFields t).any (fun f => containsSub "<".data f.name.data) then
    [{ question := "Field specifications incomplete for " ++ t.summary,
       context := "Field names or types contain placeholders" }]
   else [])
  ++ (if t.ticket_type == "view_table_data" &&
      (ticketColumns t).any (fun col => containsSub "<".data col.data) then
    [{ question := "Column specifications incomplete for " ++ t.summary,
       context := "Column names contain placeholders" }]
   else [])

/-- Model of `TranscriptProcessor._identify_clarifications`: scan every
ticket of every epic in order. -/
def identify_clarifications (st : RequirementDocument) : List ClarificationItem :=
  st.epics.flatMap (fun e => e.tickets.flatMap clarificationsOfTicket)

/-! ## The pipeline (`process_transcript`) -/

/-- Model of `TranscriptProcessor.process_transcript`.  `now` is the date
`datetime.now` would yield, surfaced as an explicit input; the optional
`metadata` argument mirrors the Python parameter.  The processor is returned
unchanged alongside the document, reflecting that the method writes no
instance state. -/
def TranscriptProcessor.process_transcript (proc : TranscriptProcessor) (now : String)
    (text : List Char) (metadata : Option MeetingMetadata) :
    RequirementDocument × TranscriptProcessor :=
  let pats := proc.extraction_patterns
  let mm := match metadata with
    | some m => m
    | none => extract_metadata now text
  let epics := (extract_epics pats text).map (process_epic pats text)
  let base : RequirementDocument :=
    { meeting_metadata := mm, epics := epics,
      action_items := extract_action_items text, clarifications_needed := [] }
  ({ base with clarifications_needed := identify_clarifications base }, proc)

/-- The document produced by a freshly constructed processor. -/
def processDoc (now : String) (text : List Char) : RequirementDocument :=
  (TranscriptProcessor.new.process_transcript now text none).1

/-! ## Summary templating (`TicketGenerator.generate_summary`) -/

/-- Python truthiness fallback `opt or d` for optional string arguments. -/
def orDefault (o : Option String) (d : String) : String :=
  match o with
  | some s => if s = "" then d else s
  | none => d

/-- Model of `str.startswith`. -/
def pyStartsWith (p s : String) : Bool := startsWithChars p.data s.data

/-- Model of `TicketGenerator.generate_summary`. -/
def generate_summary (ticket_type feature_name : String)
    (tab_name entity_name scope : Option String) : String :=
  let base :=
    if ticket_type = "view_table_data" then
      "User should be able to access and view data in the table of \x27" ++
        orDefault tab_name feature_name ++ "\x27 tab"
    else if ticket_type = "add_entity" then
      "User should be able to add a " ++ orDefault entity_name "record" ++
        " by clicking on \"+ " ++ orDefault entity_name "Add" ++ "\" CTA"
    else if ticket_type = "perform_actions" then
      "User should be able to perform actions on " ++ orDefault entity_name "records" ++
        " in \x27" ++ orDefault tab_name feature_name ++ "\x27 tab"
    else if ticket_type = "search_filter" then
      "User should be able to Search and Filter data in \x27" ++
        orDefault tab_name feature_name ++ "\x27 tab"
    else if ticket_type = "download" then
      "User should be able to download all the records in \"" ++ feature_name ++ "\" feature"
    else if ticket_type = "upload_csv" then
      "User should be able to upload data in bulk in \"" ++ feature_name ++ "\" feature"
    else if ticket_type = "backend_architecture" then
      "BE: Implement backend architecture of \"" ++ feature_name ++ "\""
    else if ticket_type = "rbac_permissions" then
      "Adding RBAC permissions related to \"" ++ feature_name ++
        "\" in Permission tab of Administration menu"
    else if ticket_type = "nav_menu" then
      "FE: User should be able to view a new menu \"" ++ feature_name ++
        "\" under \"Clinical\" in nav panel"
    else if ticket_type = "edge_cases" then
      "Handling deleted data edge cases in " ++ feature_name
    else
      "User should be able to " ++ feature_name
  match scope with
  | some sc =>
      if sc ≠ "" then
        let up := String.mk (pyUpper sc.data)
        if (up = "FE" ∨ up = "BE") ∧ !pyStartsWith (up ++ ":") base then
          up ++ ": " ++ base
        else base
      else base
  | none => base

/-! ## Helper lemmas -/

theorem startsWithChars_map (f : Char → Char) :
    ∀ {n s : List Char}, startsWithChars n s = true →
      startsWithChars (n.map f) (s.map f) = true := by
  intro n
  induction n with
  | nil => intro s _; rfl
  | cons a as ih =>
      intro s h
      cases s with
      | nil => simp [startsWithChars] at h
      | cons b bs =>
          simp only [startsWithChars, Bool.and_eq_true, beq_iff_eq] at h
          simp only [List.map_cons, startsWithChars, Bool.and_eq_true, beq_iff_eq]
          exact ⟨congrArg f h.1, ih h.2⟩

theorem containsSub_map (f : Char → Char) :
    ∀ {n s : List Char}, containsSub n s = true →
      containsSub (n.map f) (s.map f) = true := by
  intro n s
  induction s with
  | nil =>
      intro h
      cases n with
      | nil => rfl
      | cons a as => simp [containsSub, startsWithChars] at h
  | cons c rest ih =>
      intro h
      simp only [containsSub, Bool.or_eq_true] at h
      simp only [List.map_cons, containsSub, Bool.or_eq_true]
      rcases h with h | h
      · exact Or.inl (by
          have := startsWithChars_map f h
          simpa using this)
      · exact Or.inr (ih h)

theorem mem_ite_nil {α : Type} {c : Prop} [Decidable c] {a : α} {l : List α}
    (h : a ∈ if c then l else []) : a ∈ l := by
  split at h
  · exact h
  · simp at h

/-- Every ticket produced by the synthesizer is one of the six constructed
ticket records. -/
theorem mem_generate_cases {pats : Patterns} {text : List Char} {name : String}
    {tabs : List String} {t : Ticket}
    (h : t ∈ generate_tickets_from_text pats text name tabs) :
    t = backendTicket name ∨ t = rbacTicket pats text name ∨ t = navTicket name ∨
    (∃ tab ∈ tabs, t = viewTableTicket pats text tab) ∨
    (∃ tab ∈ tabs, t = searchFilterTicket tab) ∨
    t = addEntityTicket text name := by
  unfold generate_tickets_from_text at h
  rcases List.mem_append.1 h with h | h
  · rcases List.mem_append.1 h with h | h
    · rcases List.mem_append.1 h with h | h
      · rcases List.mem_append.1 h with h | h
        · exact Or.inl (List.mem_singleton.1 h)
        · exact Or.inr (Or.inl (List.mem_singleton.1 (mem_ite_nil h)))
      · exact Or.inr (Or.inr (Or.inl (List.mem_singleton.1 (mem_ite_nil h))))
    · obtain ⟨tab, htab, hm⟩ := List.mem_flatMap.1 h
      rcases List.mem_append.1 hm with hm | hm
      · exact Or.inr (Or.inr (Or.inr (Or.inl ⟨tab, htab, List.mem_singleton.1 hm⟩)))
      · exact Or.inr (Or.inr (Or.inr (Or.inr
          (Or.inl ⟨tab, htab, List.mem_singleton.1 (mem_ite_nil hm)⟩))))
  · exact Or.inr (Or.inr (Or.inr (Or.inr (Or.inr (List.mem_singleton.1 (mem_ite_nil h))))))

/-- Every epic of a produced document is `process_epic` of some name. -/
theorem epics_mem_shape {proc : TranscriptProcessor} {now : String} {text : List Char}
    {md : Option MeetingMetadata} {e : Epic}
    (he : e ∈ (proc.process_transcript now text md).1.epics) :
    ∃ name, e = process_epic proc.extraction_patterns text name := by
  have hrw : (proc.process_transcript now text md).1.epics =
      (extract_epics proc.extraction_patterns text).map
        (process_epic proc.extraction_patterns text) := rfl
  rw [hrw] at he
  obtain ⟨name, _, h⟩ := List.mem_map.1 he
  exact ⟨name, h.symm⟩

theorem extract_epics_ne_nil (pats : Patterns) (text : List Char) :
    extract_epics pats text ≠ [] := by
  unfold extract_epics
  split
  · simp
  · assumption

theorem rbacAdd_preserved {m : List (String × RbacEntry)} {p : String × RbacEntry}
    (hp : p ∈ m) (role action : String) :
    ∃ q ∈ rbacAdd m role action, q.1 = p.1 ∧ ∀ a ∈ p.2.actions, a ∈ q.2.actions := by
  unfold rbacAdd
  split
  · refine ⟨if p.1 == role then (p.1, { p.2 with actions := p.2.actions ++ [action] })
      else p, List.mem_map_of_mem _ hp, ?_, ?_⟩
    · split <;> rfl
    · split
      · exact fun a ha => List.mem_append_left _ ha
      · exact fun a ha => ha
  · exact ⟨p, List.mem_append_left _ hp, rfl, fun a ha => ha⟩

theorem rbacAdd_mem (m : List (String × RbacEntry)) (role action : String) :
    ∃ q ∈ rbacAdd m role action, q.1 = role ∧ action ∈ q.2.actions := by
  unfold rbacAdd
  split
  · next hany =>
      obtain ⟨p, hp, hbeq⟩ := List.any_eq_true.1 hany
      have hf := List.mem_map_of_mem
        (fun q : String × RbacEntry =>
          if q.1 == role then (q.1, { q.2 with actions := q.2.actions ++ [action] }) else q) hp
      simp only [hbeq, if_true] at hf
      exact ⟨_, hf, eq_of_beq hbeq, List.mem_append_right _ (List.mem_singleton.2 rfl)⟩
  · exact ⟨(role, { permissions := [], actions := [action] }),
      List.mem_append_right _ (List.mem_singleton.2 rfl), rfl,
      List.mem_singleton.2 rfl⟩

theorem foldl_rbacAdd_preserved (f g : Caps → String) :
    ∀ (l : List Caps) (m : List (String × RbacEntry)) {p : String × RbacEntry}, p ∈ m →
      ∃ q ∈ l.foldl (fun m caps => rbacAdd m (f caps) (g caps)) m,
        q.1 = p.1 ∧ ∀ a ∈ p.2.actions, a ∈ q.2.actions := by
  intro l
  induction l with
  | nil => exact fun m p hp => ⟨p, hp, rfl, fun a ha => ha⟩
  | cons c cs ih =>
      intro m p hp
      obtain ⟨q, hq, hq1, hq2⟩ := rbacAdd_preserved hp (f c) (g c)
      obtain ⟨r, hr, hr1, hr2⟩ := ih _ hq
      exact ⟨r, hr, hr1.trans hq1, fun a ha => hr2 a (hq2 a ha)⟩

theorem foldl_rbacAdd_mem (f g : Caps → String) :
    ∀ (l : List Caps) (m : List (String × RbacEntry)) {c : Caps}, c ∈ l →
      ∃ q ∈ l.foldl (fun m caps => rbacAdd m (f caps) (g caps)) m,
        q.1 = f c ∧ g c ∈ q.2.actions := by
  intro l
  induction l with
  | nil => intro m c hc; exact absurd hc (List.not_mem_nil c)
  | cons d ds ih =>
      intro m c hc
      rcases List.mem_cons.1 hc with rfl | hc
      · obtain ⟨q, hq, hq1, hq2⟩ := rbacAdd_mem m (f c) (g c)
        obtain ⟨r, hr, hr1, hr2⟩ := foldl_rbacAdd_preserved f g ds _ hq
        exact ⟨r, hr, hr1.trans hq1, hr2 _ hq2⟩
      · exact ih _ hc

theorem extract_priority_critical {text : List Char}
    (h : containsSub "critical".data text = true) :
    extract_priority text = "Highest" := by
  have hl : containsSub "critical".data (pyLower text) = true := by
    have h2 := containsSub_map Char.toLower h
    have h3 : "critical".data.map Char.toLower = "critical".data := by decide
    rw [h3] at h2
    exact h2
  have hany : anyKeyword ["highest", "critical", "urgent"] (pyLower text) = true := by
    simp only [anyKeyword, List.any_cons, List.any_nil, Bool.or_eq_true]
    exact Or.inr (Or.inl hl)
  unfold extract_priority
  simp [hany]

/-! ## Claim theorems -/

/-- C2: a transcript containing both "critical" and "low priority" gives
every epic the priority "Highest" — the first matching tier wins. -/
theorem priority_first_tier_highest :
    ∀ (proc : TranscriptProcessor) (now : String) (text : List Char)
      (md : Option MeetingMetadata),
    containsSub "critical".data text = true →
    containsSub "low priority".data text = true →
    ∀ e ∈ (proc.process_transcript now text md).1.epics, e.priority = "Highest" := by
  intro proc now text md h1 _h2 e he
  obtain ⟨name, rfl⟩ := epics_mem_shape he
  exact extract_priority_critical h1

/-- C2 witness: a concrete transcript containing both keywords. -/
theorem priority_first_tier_highest_witness :
    containsSub "critical".data "critical and low priority".data = true ∧
    containsSub "low priority".data "critical and low priority".data = true ∧
    ∃ e ∈ (TranscriptProcessor.new.process_transcript "2024-01-01"
        "critical and low priority".data none).1.epics, e.priority = "Highest" := by
  refine ⟨by decide, by decide, ?_⟩
  have hne : (TranscriptProcessor.new.process_transcript "2024-01-01"
      "critical and low priority".data none).1.epics ≠ [] := by decide
  exact ⟨_, List.head_mem hne,
    priority_first_tier_highest TranscriptProcessor.new "2024-01-01"
      "critical and low priority".data none (by decide) (by decide) _ (List.head_mem hne)⟩

/-- C3: when no epic_name rule yields a match the segmenter returns exactly
the fallback singleton, and every document has a non-empty epics list. -/
theorem epics_fallback_nonempty :
    ∀ (proc : TranscriptProcessor) (now : String) (text : List Char)
      (md : Option MeetingMetadata),
    (epicCapturedNames proc.extraction_patterns text = [] →
      extract_epics proc.extraction_patterns text = ["Unnamed Feature"]) ∧
    (proc.process_transcript now text md).1.epics ≠ [] := by
  intro proc now text md
  constructor
  · intro h
    unfold extract_epics
    rw [h]
    rfl
  · intro h
    have h' : (extract_epics proc.extraction_patterns text).map
        (process_epic proc.extraction_patterns text) = [] := h
    exact extract_epics_ne_nil proc.extraction_patterns text (List.map_eq_nil_iff.1 h')

/-- C3 witness: a transcript with no epic-name match. -/
theorem epics_fallback_nonempty_witness :
    epicCapturedNames TranscriptProcessor.new.extraction_patterns "hello".data = [] ∧
    extract_epics TranscriptProcessor.new.extraction_patterns "hello".data =
      ["Unnamed Feature"] ∧
    (TranscriptProcessor.new.process_transcript "2024-01-01" "hello".data none).1.epics ≠ [] :=
  ⟨by decide,
   (epics_fallback_nonempty TranscriptProcessor.new "2024-01-01" "hello".data none).1
     (by decide),
   (epics_fallback_nonempty TranscriptProcessor.new "2024-01-01" "hello".data none).2⟩

/-- C4: every epic's ticket list starts with the unconditional
backend_architecture ticket of priority High. -/
theorem first_ticket_backend_high :
    ∀ (proc : TranscriptProcessor) (now : String) (text : List Char)
      (md : Option MeetingMetadata),
    ∀ e ∈ (proc.process_transcript now text md).1.epics,
    ∃ t ts, e.tickets = t :: ts ∧ t.ticket_type = "backend_architecture" ∧
      t.priority = "High" := by
  intro proc now text md e he
  obtain ⟨name, rfl⟩ := epics_mem_shape he
  exact ⟨backendTicket name, _, rfl, rfl, rfl⟩

/-- C4 witness. -/
theorem first_ticket_backend_high_witness :
    ∃ e ∈ (TranscriptProcessor.new.process_transcript "2024-01-01" "hi".data none).1.epics,
    ∃ t ts, e.tickets = t :: ts ∧ t.ticket_type = "backend_architecture" ∧
      t.priority = "High" := by
  have hne : (TranscriptProcessor.new.process_transcript "2024-01-01"
      "hi".data none).1.epics ≠ [] := by decide
  exact ⟨_, List.head_mem hne,
    first_ticket_backend_high TranscriptProcessor.new "2024-01-01" "hi".data none _
      (List.head_mem hne)⟩

/-- The closed enumeration of ticket kinds. -/
def ticketTypeEnum : List String :=
  ["view_table_data", "add_entity", "perform_actions", "search_filter", "download",
   "upload_csv", "backend_architecture", "rbac_permissions", "nav_menu", "edge_cases",
   "generic_story"]

/-- C5: every generated ticket's ticket_type is in the closed enumeration. -/
theorem ticket_type_in_enum :
    ∀ (proc : TranscriptProcessor) (now : String) (text : List Char)
      (md : Option MeetingMetadata),
    ∀ e ∈ (proc.process_transcript now text md).1.epics,
    ∀ t ∈ e.tickets, t.ticket_type ∈ ticketTypeEnum := by
  intro proc now text md e he t ht
  obtain ⟨name, rfl⟩ := epics_mem_shape he
  have ht' : t ∈ generate_tickets_from_text proc.extraction_patterns text name
      (extract_tabs proc.extraction_patterns text) := ht
  rcases mem_generate_cases ht' with h | h | h | ⟨tab, _, h⟩ | ⟨tab, _, h⟩ | h <;> subst h
  · show "backend_architecture" ∈ ticketTypeEnum
    decide
  · show "rbac_permissions" ∈ ticketTypeEnum
    decide
  · show "nav_menu" ∈ ticketTypeEnum
    decide
  · show "view_table_data" ∈ ticketTypeEnum
    decide
  · show "search_filter" ∈ ticketTypeEnum
    decide
  · show "add_entity" ∈ ticketTypeEnum
    decide

/-- C5 witness. -/
theorem ticket_type_in_enum_witness :
    ∃ e ∈ (TranscriptProcessor.new.process_transcript "2024-01-01" "hi".data none).1.epics,
    ∃ t ∈ e.tickets, t.ticket_type ∈ ticketTypeEnum := by
  have h : ∃ e ∈ (TranscriptProcessor.new.process_transcript "2024-01-01"
      "hi".data none).1.epics, ∃ t ∈ e.tickets, True := by decide
  obtain ⟨e, he, t, ht, -⟩ := h
  exact ⟨e, he, t, ht,
    ticket_type_in_enum TranscriptProcessor.new "2024-01-01" "hi".data none e he t ht⟩

/-- C6: with the clock surfaced as an input, processing is deterministic:
the call leaves the processor unchanged and reprocessing the same text with
the same date default yields the identical document. -/
theorem process_transcript_deterministic :
    ∀ (proc : TranscriptProcessor) (now : String) (text : List Char)
      (md : Option MeetingMetadata),
    (proc.process_transcript now text md).2 = proc ∧
    ((proc.process_transcript now text md).2.process_transcript now text md).1 =
      (proc.process_transcript now text md).1 :=
  fun _ _ _ _ => ⟨rfl, rfl⟩

/-- C1 amended: when a creation keyword is present, every epic gets an
add_entity ticket whose summary is the plain template
`User should be able to add a {E}` — without the CTA clause. -/
theorem add_entity_summary_plain :
    ∀ (proc : TranscriptProcessor) (now : String) (text : List Char)
      (md : Option MeetingMetadata),
    ∀ e ∈ (proc.process_transcript now text md).1.epics,
    anyKeyword ["add", "create", "new", "form"] (pyLower text) = true →
    ∃ t ∈ e.tickets, t.ticket_type = "add_entity" ∧
      t.summary = "User should be able to add a " ++
        extract_entity_name text e.epic_name := by
  intro proc now text md e he hkw
  obtain ⟨name, rfl⟩ := epics_mem_shape he
  refine ⟨addEntityTicket text name, ?_, rfl, rfl⟩
  show addEntityTicket text name ∈ generate_tickets_from_text proc.extraction_patterns
    text name (extract_tabs proc.extraction_patterns text)
  simp [generate_tickets_from_text, hkw]

/-- C1 witness (for the amended statement). -/
theorem add_entity_summary_plain_witness :
    anyKeyword ["add", "create", "new", "form"] (pyLower "add a widget".data) = true ∧
    ∃ e ∈ (TranscriptProcessor.new.process_transcript "2024-01-01"
        "add a widget".data none).1.epics,
    ∃ t ∈ e.tickets, t.ticket_type = "add_entity" ∧
      t.summary = "User should be able to add a widget" := by
  refine ⟨by decide, ?_⟩
  have h : ∃ e ∈ (TranscriptProcessor.new.process_transcript "2024-01-01"
      "add a widget".data none).1.epics, e.epic_name = "Unnamed Feature" := by decide
  obtain ⟨e, he, hn⟩ := h
  obtain ⟨t, ht, hty, hs⟩ := add_entity_summary_plain TranscriptProcessor.new "2024-01-01"
    "add a widget".data none e he (by decide)
  refine ⟨e, he, t, ht, hty, ?_⟩
  rw [hs, hn]
  decide

/-- C1 counterexample: the synthesized summary is not the CTA template the
claim states (the CTA form is what `generate_summary` would produce). -/
theorem add_entity_summary_cta_counterexample :
    anyKeyword ["add", "create", "new", "form"] (pyLower "add a widget".data) = true ∧
    ∃ e ∈ (TranscriptProcessor.new.process_transcript "2024-01-01"
        "add a widget".data none).1.epics,
    ∃ t ∈ e.tickets, t.ticket_type = "add_entity" ∧
      t.summary = "User should be able to add a widget" ∧
      t.summary ≠ generate_summary "add_entity" e.epic_name none (some "widget") none := by
  decide

/-- C7: a placeholder field in an add_entity ticket, or a placeholder column
in a view_table_data ticket, is flagged by a clarification that references
the ticket's summary. -/
theorem clarifications_flag_placeholder_tickets :
    ∀ (st : RequirementDocument), ∀ e ∈ st.epics, ∀ t ∈ e.tickets,
    (t.ticket_type = "add_entity" →
      (ticketFields t).any (fun f => containsSub "<".data f.name.data) = true →
      ∃ c ∈ identify_clarifications st,
        c.question = "Field specifications incomplete for " ++ t.summary) ∧
    (t.ticket_type = "view_table_data" →
      (ticketColumns t).any (fun col => containsSub "<".data col.data) = true →
      ∃ c ∈ identify_clarifications st,
        c.question = "Column specifications incomplete for " ++ t.summary) := by
  intro st e he t ht
  constructor
  · intro hty hf
    refine ⟨⟨"Field specifications incomplete for " ++ t.summary,
      "Field names or types contain placeholders"⟩, ?_, rfl⟩
    unfold identify_clarifications
    refine List.mem_flatMap.2 ⟨e, he, List.mem_flatMap.2 ⟨t, ht, ?_⟩⟩
    unfold clarificationsOfTicket
    have hc : (t.ticket_type == "add_entity" &&
        (ticketFields t).any (fun f => containsSub "<".data f.name.data)) = true := by
      rw [hty, hf]
      rfl
    rw [if_pos hc]
    exact List.mem_append_left _ (List.mem_singleton.2 rfl)
  · intro hty hf
    refine ⟨⟨"Column specifications incomplete for " ++ t.summary,
      "Column names contain placeholders"⟩, ?_, rfl⟩
    unfold identify_clarifications
    refine List.mem_flatMap.2 ⟨e, he, List.mem_flatMap.2 ⟨t, ht, ?_⟩⟩
    unfold clarificationsOfTicket
    have hc : (t.ticket_type == "view_table_data" &&
        (ticketColumns t).any (fun col => containsSub "<".data col.data)) = true := by
      rw [hty, hf]
      rfl
    rw [if_pos hc]
    exact List.mem_append_right _ (List.mem_singleton.2 rfl)

/-- C7 witness: one transcript whose document has both a placeholder
add_entity ticket and placeholder view_table_data tickets. -/
theorem clarifications_flag_placeholder_tickets_witness :
    (∃ c ∈ identify_clarifications (TranscriptProcessor.new.process_transcript "2024-01-01"
        "add stuff tabs: A, B".data none).1,
      c.question = "Field specifications incomplete for User should be able to add a stuff") ∧
    ∃ c ∈ identify_clarifications (TranscriptProcessor.new.process_transcript "2024-01-01"
        "add stuff tabs: A, B".data none).1,
      c.question = "Column specifications incomplete for User should be able to access and view data in the table of \x27A\x27 tab" := by
  constructor
  · have h : ∃ e ∈ (TranscriptProcessor.new.process_transcript "2024-01-01"
        "add stuff tabs: A, B".data none).1.epics, ∃ t ∈ e.tickets,
        t.ticket_type = "add_entity" ∧
        (ticketFields t).any (fun f => containsSub "<".data f.name.data) = true ∧
        t.summary = "User should be able to add a stuff" := by decide
    obtain ⟨e, he, t, ht, hty, hf, hs⟩ := h
    obtain ⟨c, hc, hq⟩ :=
      (clarifications_flag_placeholder_tickets _ e he t ht).1 hty hf
    exact ⟨c, hc, by rw [hq, hs]; decide⟩
  · have h : ∃ e ∈ (TranscriptProcessor.new.process_transcript "2024-01-01"
        "add stuff tabs: A, B".data none).1.epics, ∃ t ∈ e.tickets,
        t.ticket_type = "view_table_data" ∧
        (ticketColumns t).any (fun col => containsSub "<".data col.data) = true ∧
        t.summary = "User should be able to access and view data in the table of \x27A\x27 tab" := by
      decide
    obtain ⟨e, he, t, ht, hty, hf, hs⟩ := h
    obtain ⟨c, hc, hq⟩ :=
      (clarifications_flag_placeholder_tickets _ e he t ht).2 hty hf
    exact ⟨c, hc, by rw [hq, hs]; decide⟩

/-- C8 counterexample: the transcript contains the sentence, yet the rbac
map has no "Nurses" actor, because an earlier match of rule 1 consumes the
whole region up to the end of the text. -/
theorem rbac_nurses_counterexample :
    containsSub "only nurses can edit medication records".data
      "only doctors can view only nurses can edit medication records".data = true ∧
    (extract_rbac load_extraction_patterns
      "only doctors can view only nurses can edit medication records".data).all
      (fun q => q.1 != "Nurses") = true := by
  decide

/-- C8 amended: whenever some rbac-rule match captures the actor span
"nurses" and the action "edit medication records", the rbac map contains the
actor "Nurses" with that action in its accumulated action list. -/
theorem rbac_nurses_accumulate :
    ∀ (text : List Char),
    (∃ caps ∈ ruleCaptures load_extraction_patterns.rbac text,
        String.mk (pyCapitalize (capGet 1 caps)) = "Nurses" ∧
        String.mk (pyStrip (rbacActionOf caps)) = "edit medication records") →
    ∃ q ∈ extract_rbac load_extraction_patterns text,
      q.1 = "Nurses" ∧ "edit medication records" ∈ q.2.actions := by
  intro text h
  obtain ⟨caps, hcaps, h1, h2⟩ := h
  obtain ⟨q, hq, hq1, hq2⟩ := foldl_rbacAdd_mem
    (fun caps => String.mk (pyCapitalize (capGet 1 caps)))
    (fun caps => String.mk (pyStrip (rbacActionOf caps)))
    (ruleCaptures load_extraction_patterns.rbac text) [] hcaps
  refine ⟨q, hq, ?_, ?_⟩
  · rw [hq1]
    exact h1
  · rw [← h2]
    exact hq2

/-- C8 witness: on the standalone sentence both rbac rules match, so the
action accumulates twice under the single actor "Nurses". -/
theorem rbac_nurses_accumulate_witness :
    (∃ caps ∈ ruleCaptures load_extraction_patterns.rbac
        "only nurses can edit medication records".data,
      String.mk (pyCapitalize (capGet 1 caps)) = "Nurses" ∧
      String.mk (pyStrip (rbacActionOf caps)) = "edit medication records") ∧
    (∃ q ∈ extract_rbac load_extraction_patterns
        "only nurses can edit medication records".data,
      q.1 = "Nurses" ∧ "edit medication records" ∈ q.2.actions) ∧
    extract_rbac load_extraction_patterns "only nurses can edit medication records".data =
      [("Nurses",
        ⟨[], ["edit medication records", "edit medication records"]⟩)] :=
  ⟨by decide, rbac_nurses_accumulate _ (by decide), by decide⟩

/-- C9 counterexample: the transcript contains the quoted phrase and there
is exactly one tab-rule match, yet the greedy capture runs past the phrase,
so the tabs list is not the claimed one. -/
theorem tabs_literal_counterexample :
    containsSub "tabs: Active, Discontinued and History".data
      "tabs: Active, Discontinued and History now".data = true ∧
    (tabsCaptures load_extraction_patterns
      "tabs: Active, Discontinued and History now".data).length = 1 ∧
    extract_tabs load_extraction_patterns
      "tabs: Active, Discontinued and History now".data ≠
      ["Active", "Discontinued", "History"] ∧
    extract_tabs load_extraction_patterns
      "tabs: Active, Discontinued and History now".data =
      ["Active", "Discontinued", "History now"] := by
  decide

/-- C9 amended: whenever the tab rules capture exactly the single span
"Active, Discontinued and History", the extracted tabs are the three split
and trimmed names. -/
theorem tabs_single_capture :
    ∀ (text : List Char),
    tabsCaptures load_extraction_patterns text =
      ["Active, Discontinued and History".data] →
    extract_tabs load_extraction_patterns text = ["Active", "Discontinued", "History"] := by
  intro text h
  unfold extract_tabs
  rw [h]
  decide

/-- C9 witness: the transcript consisting of exactly the quoted phrase. -/
theorem tabs_single_capture_witness :
    tabsCaptures load_extraction_patterns
      "tabs: Active, Discontinued and History".data =
      ["Active, Discontinued and History".data] ∧
    extract_tabs load_extraction_patterns
      "tabs: Active, Discontinued and History".data =
      ["Active", "Discontinued", "History"] :=
  ⟨by decide, tabs_single_capture _ (by decide)⟩

/-- Every view_table_data ticket of the synthesizer carries the columns
extracted from the whole transcript, independent of the tab. -/
theorem view_columns_of_mem {pats : Patterns} {text : List Char} {name : String}
    {tabs : List String} {t : Ticket}
    (h : t ∈ generate_tickets_from_text pats text name tabs)
    (hv : t.ticket_type = "view_table_data") :
    ticketColumns t = extract_columns pats text none := by
  rcases mem_generate_cases h with h | h | h | ⟨tab, _, h⟩ | ⟨tab, _, h⟩ | h <;> subst h
  · exact absurd hv (by decide : ("backend_architecture" : String) ≠ "view_table_data")
  · exact absurd hv (by decide : ("rbac_permissions" : String) ≠ "view_table_data")
  · exact absurd hv (by decide : ("nav_menu" : String) ≠ "view_table_data")
  · rfl
  · exact absurd hv (by decide : ("search_filter" : String) ≠ "view_table_data")
  · exact absurd hv (by decide : ("add_entity" : String) ≠ "view_table_data")

/-- C10: column extraction ignores the tab argument, so all view_table_data
tickets of a document — across every epic and tab — carry identical
columns. -/
theorem view_columns_uniform :
    ∀ (proc : TranscriptProcessor) (now : String) (text : List Char)
      (md : Option MeetingMetadata),
    (∀ tn tn', extract_columns proc.extraction_patterns text tn =
        extract_columns proc.extraction_patterns text tn') ∧
    ∀ e1 ∈ (proc.process_transcript now text md).1.epics,
    ∀ e2 ∈ (proc.process_transcript now text md).1.epics,
    ∀ t1 ∈ e1.tickets, ∀ t2 ∈ e2.tickets,
    t1.ticket_type = "view_table_data" → t2.ticket_type = "view_table_data" →
    ticketColumns t1 = ticketColumns t2 := by
  intro proc now text md
  refine ⟨fun _ _ => rfl, ?_⟩
  intro e1 he1 e2 he2 t1 ht1 t2 ht2 h1 h2
  obtain ⟨n1, rfl⟩ := epics_mem_shape he1
  obtain ⟨n2, rfl⟩ := epics_mem_shape he2
  have g1 : t1 ∈ generate_tickets_from_text proc.extraction_patterns text n1
      (extract_tabs proc.extraction_patterns text) := ht1
  have g2 : t2 ∈ generate_tickets_from_text proc.extraction_patterns text n2
      (extract_tabs proc.extraction_patterns text) := ht2
  rw [view_columns_of_mem g1 h1, view_columns_of_mem g2 h2]

/-- C10 witness: two distinct view tickets of one document carry the same
columns. -/
theorem view_columns_uniform_witness :
    ∃ e ∈ (TranscriptProcessor.new.process_transcript "2024-01-01"
        "tabs: A, B".data none).1.epics,
    ∃ t1 ∈ e.tickets, ∃ t2 ∈ e.tickets,
      t1.ticket_type = "view_table_data" ∧ t2.ticket_type = "view_table_data" ∧
      t1.summary ≠ t2.summary ∧ ticketColumns t1 = ticketColumns t2 := by
  have h : ∃ e ∈ (TranscriptProcessor.new.process_transcript "2024-01-01"
      "tabs: A, B".data none).1.epics,
      ∃ t1 ∈ e.tickets, ∃ t2 ∈ e.tickets,
      t1.ticket_type = "view_table_data" ∧ t2.ticket_type = "view_table_data" ∧
      t1.summary ≠ t2.summary := by decide
  obtain ⟨e, he, t1, h1m, t2, h2m, hty1, hty2, hne⟩ := h
  exact ⟨e, he, t1, h1m, t2, h2m, hty1, hty2, hne,
    (view_columns_uniform TranscriptProcessor.new "2024-01-01" "tabs: A, B".data none).2
      e he e he t1 h1m t2 h2m hty1 hty2⟩

end FCH
